import Mathlib

/-!
Verification of the HDF5 video dataset adapter
(examples/pytorch_hdf5_video_dataset.py).

Shallow embedding conventions: Python ints are modelled by `ℤ` (or `ℕ` where
the source guarantees non-negativity), Python floats are idealised as exact
rationals `ℚ`, the builtin `round` is round-half-to-even (`pyRound`), list
indexing with Python negative-index semantics is `pyListGet`, dict lookup is
`List.lookup`, and raised exceptions are `Except PyErr`.  The external
capabilities are parameters of the embedding: the HDF5 container maps a clip
key to a `Clip` (its member count and its keyed binary blobs) and the image
codec is an arbitrary function `decode : Blob → Option Img`.  The random clip
choice drawn by randint is passed in as the explicit argument `choice`.
-/

/-- Python runtime errors the adapter can raise. -/
inductive PyErr where
  | indexError
  | keyError
  | valueError
  | decodeError
  | assertionError
  deriving DecidableEq

/-- A Python number that is either an int or a float (floats idealised as `ℚ`).
The sampled frame-index list holds ints from round and range, but holds an
unrounded float in the single-frame branch of the source. -/
inductive PyVal where
  | intV (z : ℤ)
  | floatV (q : ℚ)
  deriving DecidableEq

/-- Numeric value of a `PyVal`. -/
def pyValQ : PyVal → ℚ
  | .intV z => z
  | .floatV q => q

/-- Python builtin round on a float: round half to even, returning an int. -/
def pyRound (q : ℚ) : ℤ :=
  if q - (⌊q⌋ : ℚ) < 1/2 then ⌊q⌋
  else if 1/2 < q - (⌊q⌋ : ℚ) then ⌊q⌋ + 1
  else if ⌊q⌋ % 2 = 0 then ⌊q⌋ else ⌊q⌋ + 1

/-- Python list indexing xs[i]: a negative index counts from the end; an index
still out of range after that adjustment raises IndexError, modelled as
`none`. -/
def pyListGet {α : Type} (xs : List α) (i : ℤ) : Option α :=
  let j := if i < 0 then i + (xs.length : ℤ) else i
  if 0 ≤ j then xs.get? j.toNat else none

/-- Python zero-padded decimal formatting of an int, as in the format
specifiers 03d and 08d of the source; the sign counts towards the width. -/
def pyFormatInt (width : ℕ) (z : ℤ) : String :=
  let digits := toString z.natAbs
  let sign := if z < 0 then "-" else ""
  sign ++ String.mk (List.replicate (width - (sign.length + digits.length)) '0') ++ digits

/-- Formatting a `PyVal` with the int format specifier 08d: succeeds on an
int; on a float the Python runtime raises ValueError (unknown format code d
for an object of type float). -/
def pyFormat08d : PyVal → Except PyErr String
  | .intV z => .ok (pyFormatInt 8 z)
  | .floatV _ => .error .valueError

/-- One clip group of the HDF5 container: its member count, which is what
len(frames_binary) returns, and its per-frame binary blobs keyed by the
formatted frame index. -/
structure Clip (Blob : Type) where
  len : ℕ
  frames : String → Option Blob

/-- The annotation JSON file, already parsed: meta.class_num and the
annotation mapping from video id to its class label, the only field of the
per-video record that the adapter reads. -/
structure AnnotationData where
  class_num : ℤ
  annotation : List (String × ℤ)

/-- The dataset object: the fields set by HDF5VideoDataset.__init__. -/
structure HDF5VideoDataset (Blob Img : Type) where
  num_clips : ℤ
  num_frames_per_clip : ℕ
  transform : Option (List Img → List Img)
  n_classes : ℤ
  annotation : List (String × ℤ)
  database : String → Option (Clip Blob)
  videos : List String

/-- HDF5VideoDataset.__init__: records clips, frames and transform, asserts
that frames is non-negative (AssertionError otherwise), reads the parsed
annotation file, opens the database, and sorts the video keys (Python sorted,
ascending lexicographic). -/
def init {Blob Img : Type} (data : AnnotationData) (db : String → Option (Clip Blob))
    (clips frames : ℤ) (tr : Option (List Img → List Img)) :
    Except PyErr (HDF5VideoDataset Blob Img) :=
  if 0 ≤ frames then
    .ok
      { num_clips := clips
        num_frames_per_clip := frames.toNat
        transform := tr
        n_classes := data.class_num
        annotation := data.annotation
        database := db
        videos := List.mergeSort (List.map Prod.fst data.annotation) (fun a b => decide (a ≤ b)) }
  else .error .assertionError

/-- The frame-sampling logic of __getitem__ (the Sample the frames block):
given the configured target frame count F (self.num_frames_per_clip) and the
native clip frame count L (len(frames_binary)), the list frame_index.  The
chained comparison len_of_frames != self.num_frames_per_clip > 0 means
L ≠ F ∧ 0 < F; the F = 1 branch stores the float L / 2 unrounded, exactly as
the source does. -/
def frameIndex (F L : ℕ) : List PyVal :=
  if L ≠ F ∧ 0 < F then
    if F = 1 then [PyVal.floatV ((L : ℚ) / 2)]
    else
      let skips : ℚ := ((L : ℚ) - 1) / ((F : ℚ) - 1)
      List.map (fun fi : ℕ => PyVal.intV (pyRound ((fi : ℚ) * skips))) (List.range F)
  else List.map (fun i : ℕ => PyVal.intV (i : ℤ)) (List.range L)

/-- The frame-decoding comprehension of __getitem__: for each sampled index in
order, format the frame key with 08d, fetch the blob from the clip group
(KeyError when absent), and decode it with the image codec; the first failure
raises. -/
def decodeFrames {Blob Img : Type} (decode : Blob → Option Img) (clip : Clip Blob) :
    List PyVal → Except PyErr (List Img)
  | [] => .ok []
  | v :: vs =>
    match pyFormat08d v with
    | .error e => .error e
    | .ok key =>
      match Clip.frames clip key with
      | none => .error .keyError
      | some blob =>
        match decode blob with
        | none => .error .decodeError
        | some img =>
          match decodeFrames decode clip vs with
          | .error e => .error e
          | .ok imgs => .ok (img :: imgs)

/-- HDF5VideoDataset.__getitem__ with the object state threaded explicitly:
the result of the lookup paired with the dataset object as it stands after
the call, whether the call returns or raises.  The argument choice is the
value drawn by randint over the clip indices, and decode is the external
image codec applied to the raw bytes of a frame blob. -/
def getitemS {Blob Img : Type} (decode : Blob → Option Img) (ds : HDF5VideoDataset Blob Img)
    (index choice : ℤ) : Except PyErr (List Img × ℤ) × HDF5VideoDataset Blob Img :=
  match pyListGet ds.videos index with
  | none => (.error .indexError, ds)
  | some video_id =>
    let video_clip_choice := video_id ++ "/" ++ pyFormatInt 3 choice
    match List.lookup video_id ds.annotation with
    | none => (.error .keyError, ds)
    | some ann =>
      match ds.database video_clip_choice with
      | none => (.error .keyError, ds)
      | some frames_binary =>
        let len_of_frames := Clip.len frames_binary
        let frame_index := frameIndex ds.num_frames_per_clip len_of_frames
        match decodeFrames decode frames_binary frame_index with
        | .error e => (.error e, ds)
        | .ok frames =>
          match ds.transform with
          | some t => (.ok (t frames, ann), ds)
          | none => (.ok (frames, ann), ds)

/-- HDF5VideoDataset.__getitem__ as a pure lookup: the first component of
`getitemS`. -/
def getitem {Blob Img : Type} (decode : Blob → Option Img) (ds : HDF5VideoDataset Blob Img)
    (index choice : ℤ) : Except PyErr (List Img × ℤ) :=
  (getitemS decode ds index choice).1

/-- HDF5VideoDataset.__len__. -/
def lenDataset {Blob Img : Type} (ds : HDF5VideoDataset Blob Img) : ℕ :=
  ds.videos.length

/-! ### Helper lemmas -/

/-- Python round is the identity on integer values. -/
theorem pyRound_intCast (z : ℤ) : pyRound (z : ℚ) = z := by
  unfold pyRound
  norm_num

/-- Python round sends zero to zero. -/
theorem pyRound_zero : pyRound 0 = 0 := by
  have h := pyRound_intCast 0
  simpa using h

/-- Python round (half to even) is monotone. -/
theorem pyRound_mono {q r : ℚ} (h : q ≤ r) : pyRound q ≤ pyRound r := by
  unfold pyRound
  have hf : ⌊q⌋ ≤ ⌊r⌋ := Int.floor_mono h
  rcases lt_or_eq_of_le hf with hlt | heq
  · split_ifs <;> omega
  · have ha : q - (⌊q⌋ : ℚ) ≤ r - (⌊r⌋ : ℚ) := by
      rw [heq]; linarith
    rw [heq]
    rw [heq] at ha
    split_ifs <;> first | omega | linarith

/-- Formatting with the int format specifier never raises IndexError. -/
theorem pyFormat08d_ne_indexError (v : PyVal) (e : PyErr)
    (h : pyFormat08d v = .error e) : e ≠ PyErr.indexError := by
  cases v with
  | intV z => simp [pyFormat08d] at h
  | floatV q =>
    simp [pyFormat08d] at h
    simp [← h]

/-- The decode loop never raises IndexError: its failures are ValueError
(float frame index), KeyError (missing blob) or a decode failure. -/
theorem decodeFrames_ne_indexError {Blob Img : Type} (decode : Blob → Option Img)
    (clip : Clip Blob) (l : List PyVal) :
    decodeFrames decode clip l ≠ .error PyErr.indexError := by
  induction l with
  | nil => simp [decodeFrames]
  | cons v vs ih =>
    intro h
    unfold decodeFrames at h
    split at h
    · rename_i e heq
      rw [show Except.error e = (Except.error e : Except PyErr (List Img)) from rfl] at h
      have : e = PyErr.indexError := by
        injection h
      exact pyFormat08d_ne_indexError v e heq this
    · split at h
      · injection h with h2
        cases h2
      · split at h
        · injection h with h2
          cases h2
        · split at h
          · rename_i e heq2
            injection h with h2
            exact ih (h2 ▸ heq2)
          · injection h

/-- The decode loop returns one image per sampled frame index. -/
theorem decodeFrames_length {Blob Img : Type} (decode : Blob → Option Img)
    (clip : Clip Blob) (l : List PyVal) :
    ∀ imgs : List Img, decodeFrames decode clip l = .ok imgs → imgs.length = l.length := by
  induction l with
  | nil =>
    intro imgs h
    unfold decodeFrames at h
    injection h with h2
    simp [← h2]
  | cons v vs ih =>
    intro imgs h
    unfold decodeFrames at h
    split at h
    · injection h
    · split at h
      · injection h
      · split at h
        · injection h
        · split at h
          · injection h
          · rename_i imgs0 heq
            injection h with h2
            have hlen := ih imgs0 heq
            simp [← h2, hlen]

/-- Python list indexing fails exactly on indices out of the range
[-len, len). -/
theorem pyListGet_eq_none_iff {α : Type} (xs : List α) (i : ℤ) :
    pyListGet xs i = none ↔ ((xs.length : ℤ) ≤ i ∨ i < -(xs.length : ℤ)) := by
  simp only [pyListGet]
  split_ifs with h1 h2 h3
  · simp only [List.get?_eq_getElem?, List.getElem?_eq_none_iff]
    omega
  · simp only [true_iff]
    omega
  · simp only [List.get?_eq_getElem?, List.getElem?_eq_none_iff]
    omega
  · exact absurd (Int.not_le.mp h3) h1

/-- A non-negative Python index is plain list indexing. -/
theorem pyListGet_of_nonneg {α : Type} (xs : List α) (i : ℤ) (h : 0 ≤ i) :
    pyListGet xs i = xs.get? i.toNat := by
  simp only [pyListGet]
  rw [if_neg (by omega : ¬ i < 0), if_pos h]

/-- A negative in-range Python index denotes the element at i + len. -/
theorem pyListGet_neg {α : Type} (xs : List α) (i : ℤ)
    (h1 : -(xs.length : ℤ) ≤ i) (h2 : i < 0) :
    pyListGet xs i = pyListGet xs (i + (xs.length : ℤ)) := by
  simp only [pyListGet]
  rw [if_pos h2, if_neg (by omega : ¬ i + (xs.length : ℤ) < 0)]

/-- In the many-frames resampling branch the sampled list is the map of the
rounded evenly spaced positions over range F. -/
theorem frameIndex_eq_of_many (F L : ℕ) (hF : 1 < F) (hne : L ≠ F) :
    frameIndex F L =
      List.map (fun fi : ℕ => PyVal.intV (pyRound ((fi : ℚ) * (((L : ℚ) - 1) / ((F : ℚ) - 1)))))
        (List.range F) := by
  unfold frameIndex
  rw [if_pos ⟨hne, by omega⟩, if_neg (by omega : ¬ F = 1)]

/-- In the no-resampling branch the sampled list is range L. -/
theorem frameIndex_eq_of_all (F L : ℕ) (h : F = 0 ∨ F = L) :
    frameIndex F L = List.map (fun i : ℕ => PyVal.intV (i : ℤ)) (List.range L) := by
  unfold frameIndex
  rw [if_neg (by omega : ¬ (L ≠ F ∧ 0 < F))]

/-- In the single-frame branch the sampled list is the unrounded float L/2. -/
theorem frameIndex_eq_of_one (L : ℕ) (hne : L ≠ 1) :
    frameIndex 1 L = [PyVal.floatV ((L : ℚ) / 2)] := by
  unfold frameIndex
  rw [if_pos ⟨fun h => hne h, by omega⟩, if_pos rfl]

/-! ### Claim theorems -/

/-- Claim C2: for every configured target frame count F and every native clip
frame count L ≥ 1, the sampled frame positions are non-decreasing, each lies
within [0, L-1], and when F > 1 the first is 0 and the last is L-1. -/
theorem frameIndex_sampling_invariants (F L : ℕ) (hL : 1 ≤ L) :
    List.Sorted (· ≤ ·) (List.map pyValQ (frameIndex F L)) ∧
    (∀ q ∈ List.map pyValQ (frameIndex F L), 0 ≤ q ∧ q ≤ (L : ℚ) - 1) ∧
    (1 < F →
      (List.map pyValQ (frameIndex F L)).head? = some 0 ∧
      (List.map pyValQ (frameIndex F L)).getLast? = some ((L : ℚ) - 1)) := by
  by_cases hc : L ≠ F ∧ 0 < F
  · by_cases hF1 : F = 1
    · subst hF1
      have he : List.map pyValQ (frameIndex 1 L) = [(L : ℚ) / 2] := by
        rw [frameIndex_eq_of_one L hc.1]
        rfl
      rw [he]
      have hL2 : (2 : ℚ) ≤ (L : ℚ) := by
        exact_mod_cast (by omega : 2 ≤ L)
      refine ⟨List.sorted_singleton _, ?_, ?_⟩
      · intro q hq
        rw [List.mem_singleton] at hq
        subst hq
        constructor
        · positivity
        · linarith
      · intro h
        omega
    · -- many-frames branch
      have hF2 : 2 ≤ F := by
        rcases hc with ⟨-, h⟩
        omega
      have hs0 : (0 : ℚ) ≤ ((L : ℚ) - 1) / ((F : ℚ) - 1) := by
        have h1 : (1 : ℚ) ≤ (L : ℚ) := by exact_mod_cast hL
        have h2 : (2 : ℚ) ≤ (F : ℚ) := by exact_mod_cast hF2
        have := div_nonneg (by linarith : (0:ℚ) ≤ (L : ℚ) - 1) (by linarith : (0:ℚ) ≤ (F : ℚ) - 1)
        exact this
      have hFne : (F : ℚ) - 1 ≠ 0 := by
        have h2 : (2 : ℚ) ≤ (F : ℚ) := by exact_mod_cast hF2
        intro h
        linarith
      have htop : ((F : ℚ) - 1) * (((L : ℚ) - 1) / ((F : ℚ) - 1)) = (L : ℚ) - 1 := by
        rw [mul_comm]
        exact div_mul_cancel₀ _ hFne
      have hcastL : ((L : ℚ) - 1) = (((L : ℤ) - 1 : ℤ) : ℚ) := by
        push_cast
        ring
      have hmono : ∀ a b : ℕ, a ≤ b →
          pyRound ((a : ℚ) * (((L : ℚ) - 1) / ((F : ℚ) - 1))) ≤
          pyRound ((b : ℚ) * (((L : ℚ) - 1) / ((F : ℚ) - 1))) := by
        intro a b hab
        apply pyRound_mono
        apply mul_le_mul_of_nonneg_right _ hs0
        exact_mod_cast hab
      have hlow : ∀ i : ℕ, (0 : ℤ) ≤ pyRound ((i : ℚ) * (((L : ℚ) - 1) / ((F : ℚ) - 1))) := by
        intro i
        have h0 := hmono 0 i (Nat.zero_le i)
        rw [show ((0 : ℕ) : ℚ) * (((L : ℚ) - 1) / ((F : ℚ) - 1)) = (0 : ℚ) by push_cast; ring] at h0
        rwa [pyRound_zero] at h0
      have hhigh : ∀ i : ℕ, i < F →
          pyRound ((i : ℚ) * (((L : ℚ) - 1) / ((F : ℚ) - 1))) ≤ (L : ℤ) - 1 := by
        intro i hi
        have h1 := hmono i (F - 1) (by omega)
        rw [show (((F - 1 : ℕ)) : ℚ) * (((L : ℚ) - 1) / ((F : ℚ) - 1)) = (L : ℚ) - 1 by
          rw [Nat.cast_sub (by omega : 1 ≤ F)]
          push_cast
          rw [htop]] at h1
        have h3 : pyRound ((L : ℚ) - 1) = (L : ℤ) - 1 := by
          rw [hcastL, pyRound_intCast]
        rwa [h3] at h1
      have he : List.map pyValQ (frameIndex F L) =
          List.map (fun fi : ℕ => ((pyRound ((fi : ℚ) * (((L : ℚ) - 1) / ((F : ℚ) - 1))) : ℤ) : ℚ))
            (List.range F) := by
        rw [frameIndex_eq_of_many F L (by omega) hc.1, List.map_map]
        rfl
      rw [he]
      refine ⟨?_, ?_, ?_⟩
      · rw [List.Sorted, List.pairwise_map]
        apply (List.pairwise_lt_range F).imp
        intro a b hab
        exact_mod_cast hmono a b (le_of_lt hab)
      · intro q hq
        rw [List.mem_map] at hq
        obtain ⟨i, hi, rfl⟩ := hq
        rw [List.mem_range] at hi
        constructor
        · exact_mod_cast hlow i
        · rw [hcastL]
          exact_mod_cast hhigh i hi
      · intro hF
        obtain ⟨k, rfl⟩ : ∃ k, F = k + 1 := ⟨F - 1, by omega⟩
        constructor
        · rw [List.range_succ_eq_map, List.map_cons, List.head?_cons]
          congr 1
          rw [show ((0 : ℕ) : ℚ) * (((L : ℚ) - 1) / (((k + 1 : ℕ) : ℚ) - 1)) = (0 : ℚ) by
            push_cast; ring]
          rw [pyRound_zero]
          rfl
        · rw [List.range_succ, List.map_append, List.map_singleton, List.getLast?_concat]
          congr 1
          rw [show ((k : ℕ) : ℚ) * (((L : ℚ) - 1) / (((k + 1 : ℕ) : ℚ) - 1)) = (L : ℚ) - 1 by
            have : (((k + 1 : ℕ) : ℚ) - 1) = (k : ℚ) := by push_cast; ring
            rw [this]
            have hkne : ((k : ℕ) : ℚ) ≠ 0 := by
              have : 2 ≤ k + 1 := hF2
              have : 1 ≤ k := by omega
              exact_mod_cast (by omega : (k : ℕ) ≠ 0)
            rw [mul_comm]
            exact div_mul_cancel₀ _ hkne]
          rw [hcastL, pyRound_intCast]
  · -- no-resampling branch
    have hFL : F = 0 ∨ F = L := by
      by_cases h : F = 0
      · exact Or.inl h
      · right
        omega
    have he : List.map pyValQ (frameIndex F L) =
        List.map (fun i : ℕ => ((i : ℤ) : ℚ)) (List.range L) := by
      rw [frameIndex_eq_of_all F L hFL, List.map_map]
      rfl
    rw [he]
    refine ⟨?_, ?_, ?_⟩
    · rw [List.Sorted, List.pairwise_map]
      apply (List.pairwise_lt_range L).imp
      intro a b hab
      exact_mod_cast le_of_lt hab
    · intro q hq
      rw [List.mem_map] at hq
      obtain ⟨i, hi, rfl⟩ := hq
      rw [List.mem_range] at hi
      constructor
      · positivity
      · have : (i : ℚ) + 1 ≤ (L : ℚ) := by exact_mod_cast hi
        push_cast
        linarith
    · intro hF
      have hLF : L = F := by omega
      obtain ⟨k, rfl⟩ : ∃ k, L = k + 1 := ⟨L - 1, by omega⟩
      constructor
      · rw [List.range_succ_eq_map, List.map_cons, List.head?_cons]
        norm_num
      · rw [List.range_succ, List.map_append, List.map_singleton, List.getLast?_concat]
        congr 1
        push_cast
        ring

/-- Witness for claim C2 at F = 4, L = 10. -/
theorem frameIndex_sampling_invariants_witness :
    1 ≤ 10 ∧
    (List.Sorted (· ≤ ·) (List.map pyValQ (frameIndex 4 10)) ∧
    (∀ q ∈ List.map pyValQ (frameIndex 4 10), 0 ≤ q ∧ q ≤ (10 : ℚ) - 1) ∧
    (1 < 4 →
      (List.map pyValQ (frameIndex 4 10)).head? = some 0 ∧
      (List.map pyValQ (frameIndex 4 10)).getLast? = some ((10 : ℚ) - 1))) :=
  ⟨by decide, frameIndex_sampling_invariants 4 10 (by decide)⟩

/-- Claim C1: for configured F > 1 and native length L ≠ F the sampled frame
indices are exactly round(i * (L-1)/(F-1)) for i in 0..F-1, the sampled list
has exactly F entries, a successful decode returns exactly F frames, and in
particular L = 10, F = 4 yields sampled indices [0, 3, 6, 9]. -/
theorem frameIndex_many_frames_spec (F L : ℕ) (hF : 1 < F) (hne : L ≠ F) :
    frameIndex F L =
      List.map (fun i : ℕ => PyVal.intV (pyRound ((i : ℚ) * (((L : ℚ) - 1) / ((F : ℚ) - 1)))))
        (List.range F) ∧
    (frameIndex F L).length = F ∧
    (∀ {Blob Img : Type} (decode : Blob → Option Img) (clip : Clip Blob) (imgs : List Img),
      decodeFrames decode clip (frameIndex F L) = .ok imgs → imgs.length = F) ∧
    frameIndex 4 10 = [PyVal.intV 0, PyVal.intV 3, PyVal.intV 6, PyVal.intV 9] := by
  have he := frameIndex_eq_of_many F L hF hne
  have hlen : (frameIndex F L).length = F := by
    rw [he, List.length_map, List.length_range]
  refine ⟨he, hlen, ?_, ?_⟩
  · intro Blob Img decode clip imgs hdec
    rw [decodeFrames_length decode clip (frameIndex F L) imgs hdec, hlen]
  · norm_num [frameIndex, pyRound, List.range_succ]

/-- Witness for claim C1 at F = 4, L = 10. -/
theorem frameIndex_many_frames_spec_witness :
    (1 < 4 ∧ 10 ≠ 4) ∧
    (frameIndex 4 10 =
      List.map
        (fun i : ℕ => PyVal.intV (pyRound ((i : ℚ) * (((10 : ℚ) - 1) / ((4 : ℚ) - 1)))))
        (List.range 4) ∧
    (frameIndex 4 10).length = 4 ∧
    (∀ {Blob Img : Type} (decode : Blob → Option Img) (clip : Clip Blob) (imgs : List Img),
      decodeFrames decode clip (frameIndex 4 10) = .ok imgs → imgs.length = 4) ∧
    frameIndex 4 10 = [PyVal.intV 0, PyVal.intV 3, PyVal.intV 6, PyVal.intV 9]) :=
  ⟨⟨by decide, by decide⟩, frameIndex_many_frames_spec 4 10 (by decide) (by decide)⟩

/-- Claim C4: when F = 0 or F = L (including F = L = 1), all L native frames
are used in order, indices 0..L-1, and a successful decode returns exactly L
frames. -/
theorem frameIndex_all_frames_spec (F L : ℕ) (h : F = 0 ∨ F = L) :
    frameIndex F L = List.map (fun i : ℕ => PyVal.intV (i : ℤ)) (List.range L) ∧
    (frameIndex F L).length = L ∧
    (∀ {Blob Img : Type} (decode : Blob → Option Img) (clip : Clip Blob) (imgs : List Img),
      decodeFrames decode clip (frameIndex F L) = .ok imgs → imgs.length = L) := by
  have he := frameIndex_eq_of_all F L h
  have hlen : (frameIndex F L).length = L := by
    rw [he, List.length_map, List.length_range]
  refine ⟨he, hlen, ?_⟩
  intro Blob Img decode clip imgs hdec
  rw [decodeFrames_length decode clip (frameIndex F L) imgs hdec, hlen]

/-- Witness for claim C4 at F = 0, L = 3. -/
theorem frameIndex_all_frames_spec_witness :
    (0 = 0 ∨ (0 : ℕ) = 3) ∧
    (frameIndex 0 3 = List.map (fun i : ℕ => PyVal.intV (i : ℤ)) (List.range 3) ∧
    (frameIndex 0 3).length = 3 ∧
    (∀ {Blob Img : Type} (decode : Blob → Option Img) (clip : Clip Blob) (imgs : List Img),
      decodeFrames decode clip (frameIndex 0 3) = .ok imgs → imgs.length = 3)) :=
  ⟨Or.inl rfl, frameIndex_all_frames_spec 0 3 (Or.inl rfl)⟩

/-- Claim C3 (code evaluation at the failing input): with F = 1 and L = 10 the
source samples the float 10/2 = 5.0 without rounding it to an int, so the
sampled list is not the singleton int index round(10/2) = 5 that the spec
intends, and formatting that float with the int format specifier 08d raises
ValueError before any frame is fetched. -/
theorem frameIndex_single_frame_defect :
    frameIndex 1 10 = [PyVal.floatV ((10 : ℚ) / 2)] ∧
    frameIndex 1 10 ≠ [PyVal.intV (pyRound ((10 : ℚ) / 2))] ∧
    pyRound ((10 : ℚ) / 2) = 5 ∧
    pyFormat08d (PyVal.floatV ((10 : ℚ) / 2)) = .error PyErr.valueError := by
  refine ⟨frameIndex_eq_of_one 10 (by decide), ?_, ?_, rfl⟩
  · rw [frameIndex_eq_of_one 10 (by decide)]
    simp
  · norm_num [pyRound]

/-- Claim C7: the constructor fails with AssertionError exactly when the
frames argument is negative, for every clips value (zero and negative
included) and every annotation file and database. -/
theorem init_validates_frames_only {Blob Img : Type} (data : AnnotationData)
    (db : String → Option (Clip Blob)) (clips frames : ℤ)
    (tr : Option (List Img → List Img)) :
    ((∃ ds, init data db clips frames tr = .ok ds) ↔ 0 ≤ frames) ∧
    (init data db clips frames tr = .error PyErr.assertionError ↔ frames < 0) := by
  unfold init
  split_ifs with h
  · constructor
    · constructor
      · intro _
        exact h
      · intro _
        exact ⟨_, rfl⟩
    · constructor
      · intro hcontra
        simp at hcontra
      · intro hneg
        omega
  · constructor
    · constructor
      · intro ⟨ds, hds⟩
        simp at hds
      · intro hpos
        omega
    · constructor
      · intro _
        omega
      · intro _
        rfl

/-- Claim C10: every lookup, returning or raising, leaves every field of the
dataset object (num_clips, num_frames_per_clip, transform, n_classes, the
annotation mapping, the database handle and the videos list) unchanged: the
state after getitemS is the state before. -/
theorem getitem_state_unchanged {Blob Img : Type} (decode : Blob → Option Img)
    (ds : HDF5VideoDataset Blob Img) (index choice : ℤ) :
    (getitemS decode ds index choice).2.num_clips = ds.num_clips ∧
    (getitemS decode ds index choice).2.num_frames_per_clip = ds.num_frames_per_clip ∧
    (getitemS decode ds index choice).2.transform = ds.transform ∧
    (getitemS decode ds index choice).2.n_classes = ds.n_classes ∧
    HDF5VideoDataset.annotation (getitemS decode ds index choice).2 =
      HDF5VideoDataset.annotation ds ∧
    (getitemS decode ds index choice).2.database = ds.database ∧
    (getitemS decode ds index choice).2.videos = ds.videos := by
  have h : (getitemS decode ds index choice).2 = ds := by
    unfold getitemS
    dsimp only
    repeat' split
    all_goals rfl
  rw [h]
  exact ⟨rfl, rfl, rfl, rfl, rfl, rfl, rfl⟩

/-- The lookup raises IndexError exactly when the video-list indexing fails;
no later step of the lookup raises IndexError. -/
theorem getitem_indexError_iff {Blob Img : Type} (decode : Blob → Option Img)
    (ds : HDF5VideoDataset Blob Img) (index choice : ℤ) :
    (getitem decode ds index choice = .error PyErr.indexError ↔
      pyListGet ds.videos index = none) := by
  unfold getitem getitemS
  cases hpy : pyListGet ds.videos index with
  | none => simp
  | some vid =>
    dsimp only
    constructor
    · intro h
      exfalso
      split at h
      · simp at h
      · split at h
        · simp at h
        · split at h
          · rename_i e heq
            simp only [Prod.fst] at h
            injection h with h2
            exact decodeFrames_ne_indexError decode _ _ (h2 ▸ heq)
          · split at h
            · simp at h
            · simp at h
    · intro h
      cases h

/-- A successful lookup returns the class label found for the indexed video
in the annotation mapping. -/
theorem getitem_ok_label {Blob Img : Type} (decode : Blob → Option Img)
    (ds : HDF5VideoDataset Blob Img) (index choice : ℤ) (v : List Img) (lab : ℤ)
    (hok : getitem decode ds index choice = .ok (v, lab)) :
    ∃ vid, pyListGet ds.videos index = some vid ∧
      List.lookup vid ds.annotation = some lab := by
  unfold getitem getitemS at hok
  cases hpy : pyListGet ds.videos index with
  | none =>
    rw [hpy] at hok
    simp at hok
  | some vid =>
    rw [hpy] at hok
    dsimp only at hok
    refine ⟨vid, rfl, ?_⟩
    split at hok
    · simp at hok
    · rename_i ann heq
      split at hok
      · simp at hok
      · split at hok
        · simp at hok
        · split at hok
          · rename_i t heqt
            simp only [Prod.fst] at hok
            injection hok with h2
            injection h2 with h3 h4
            rw [heq, h4]
          · simp only [Prod.fst] at hok
            injection hok with h2
            injection h2 with h3 h4
            rw [heq, h4]

/-- Claim C9: a negative index with -len ≤ index < 0 yields the same lookup
result as index + len for every clip choice and decoder (hence the same
result distribution), and an IndexError arises exactly when index ≥ len or
index < -len. -/
theorem getitem_negative_index_spec {Blob Img : Type} (decode : Blob → Option Img)
    (ds : HDF5VideoDataset Blob Img) (index choice : ℤ)
    (h1 : -(lenDataset ds : ℤ) ≤ index) (h2 : index < 0) :
    getitem decode ds index choice =
      getitem decode ds (index + (lenDataset ds : ℤ)) choice ∧
    ∀ j : ℤ, (getitem decode ds j choice = .error PyErr.indexError ↔
      ((lenDataset ds : ℤ) ≤ j ∨ j < -(lenDataset ds : ℤ))) := by
  unfold lenDataset at h1 ⊢
  constructor
  · have hpy := pyListGet_neg ds.videos index h1 h2
    unfold getitem getitemS
    rw [hpy]
  · intro j
    rw [getitem_indexError_iff, pyListGet_eq_none_iff]

/-- Claim C8: when the configured target frame count is 1 and the chosen clip
has native length L ≠ 1, the lookup always raises before decoding any frame:
the single sampled value is the float L/2, and formatting it with the int
format specifier 08d raises ValueError, for every decoder. -/
theorem getitem_single_frame_raises {Blob Img : Type} (ds : HDF5VideoDataset Blob Img)
    (index choice : ℤ) (video_id : String) (lab : ℤ) (clip : Clip Blob)
    (hv : pyListGet ds.videos index = some video_id)
    (ha : List.lookup video_id ds.annotation = some lab)
    (hc : ds.database (video_id ++ "/" ++ pyFormatInt 3 choice) = some clip)
    (hF : ds.num_frames_per_clip = 1) (hL : Clip.len clip ≠ 1) :
    frameIndex ds.num_frames_per_clip (Clip.len clip) =
      [PyVal.floatV ((Clip.len clip : ℚ) / 2)] ∧
    ∀ decode : Blob → Option Img, getitem decode ds index choice = .error PyErr.valueError := by
  have hfi : frameIndex ds.num_frames_per_clip (Clip.len clip) =
      [PyVal.floatV ((Clip.len clip : ℚ) / 2)] := by
    rw [hF]
    exact frameIndex_eq_of_one _ hL
  refine ⟨hfi, ?_⟩
  intro decode
  simp only [getitem, getitemS, hv, ha, hc]
  rw [hfi]
  simp [decodeFrames, pyFormat08d]

/-- Claim C6: the dataset length is the number of distinct video keys of the
annotation mapping, and the index order is deterministic: videos is the
ascending sorted list of the annotation keys, so the same annotation data
always produces the same videos list. -/
theorem init_len_sorted_deterministic {Blob Img : Type} (data : AnnotationData)
    (db : String → Option (Clip Blob)) (clips frames : ℤ)
    (tr : Option (List Img → List Img)) (ds : HDF5VideoDataset Blob Img)
    (hinit : init data db clips frames tr = .ok ds)
    (hnd : (List.map Prod.fst data.annotation).Nodup) :
    lenDataset ds = (List.map Prod.fst data.annotation).dedup.length ∧
    ds.videos.Perm (List.map Prod.fst data.annotation) ∧
    List.Sorted (· ≤ ·) ds.videos ∧
    ∀ (db2 : String → Option (Clip Blob)) (clips2 frames2 : ℤ)
      (tr2 : Option (List Img → List Img)) (ds2 : HDF5VideoDataset Blob Img),
      init data db2 clips2 frames2 tr2 = .ok ds2 → ds2.videos = ds.videos := by
  unfold init at hinit
  split_ifs at hinit with h
  · injection hinit with h2
    subst h2
    refine ⟨?_, ?_, ?_, ?_⟩
    · show (List.mergeSort (List.map Prod.fst data.annotation) (fun a b => decide (a ≤ b))).length
        = (List.map Prod.fst data.annotation).dedup.length
      rw [List.length_mergeSort, List.Nodup.dedup hnd]
    · exact List.mergeSort_perm (List.map Prod.fst data.annotation) (fun a b => decide (a ≤ b))
    · show List.Sorted (· ≤ ·)
        (List.mergeSort (List.map Prod.fst data.annotation) (fun a b => decide (a ≤ b)))
      have hp := @List.sorted_mergeSort String (fun a b : String => decide (a ≤ b))
        (fun a b c hab hbc => decide_eq_true (le_trans (of_decide_eq_true hab) (of_decide_eq_true hbc)))
        (fun a b => by
          rcases le_total a b with hab | hba
          · simp [hab]
          · simp [hba])
        (List.map Prod.fst data.annotation)
      exact hp.imp (fun hab => of_decide_eq_true hab)
    · intro db2 clips2 frames2 tr2 ds2 hinit2
      unfold init at hinit2
      split_ifs at hinit2 with h2'
      injection hinit2 with h3
      subst h3
      rfl

/-- Claim C5: for a dataset built by the constructor, a successful lookup at
a valid index i returns as its label exactly the class recorded in the
annotation mapping for videos[i], where videos is the sorted key list. -/
theorem getitem_label_spec {Blob Img : Type} (data : AnnotationData)
    (db : String → Option (Clip Blob)) (clips frames : ℤ)
    (tr : Option (List Img → List Img)) (ds : HDF5VideoDataset Blob Img)
    (hinit : init data db clips frames tr = .ok ds)
    (decode : Blob → Option Img) (i : ℕ) (hi : i < lenDataset ds)
    (choice : ℤ) (v : List Img) (lab : ℤ)
    (hok : getitem decode ds (i : ℤ) choice = .ok (v, lab)) :
    ds.videos = List.mergeSort (List.map Prod.fst data.annotation) (fun a b => decide (a ≤ b)) ∧
    ∃ vid, ds.videos.get? i = some vid ∧ List.lookup vid data.annotation = some lab := by
  obtain ⟨vid, hpy, hlk⟩ := getitem_ok_label decode ds (i : ℤ) choice v lab hok
  unfold init at hinit
  split_ifs at hinit with h
  · injection hinit with h2
    subst h2
    refine ⟨rfl, vid, ?_, ?_⟩
    · rw [pyListGet_of_nonneg _ _ (by exact_mod_cast Nat.zero_le i)] at hpy
      rwa [Int.toNat_ofNat] at hpy
    · exact hlk

/-! ### Concrete example data for the witnesses -/

/-- A concrete two-frame clip: blob 7 at keys 00000000 and 00000001. -/
def exClip : Clip ℕ :=
  { len := 2
    frames := fun s => if s = "00000000" ∨ s = "00000001" then some 7 else none }

/-- A concrete parsed annotation file with one video of class 9. -/
def exData : AnnotationData :=
  { class_num := 3
    annotation := [("v", 9)] }

/-- A concrete database holding one clip for video v. -/
def exDb : String → Option (Clip ℕ) :=
  fun s => if s = "v/000" then some exClip else none

/-- The dataset the constructor builds from exData and exDb with frames = 0. -/
def exDs : HDF5VideoDataset ℕ ℕ :=
  { num_clips := 1
    num_frames_per_clip := 0
    transform := none
    n_classes := 3
    annotation := [("v", 9)]
    database := exDb
    videos := ["v"] }

/-- The same dataset with frames = 1, for the single-frame claims. -/
def exDs1 : HDF5VideoDataset ℕ ℕ :=
  { exDs with num_frames_per_clip := 1 }

/-- The constructor output on the example data is exDs. -/
theorem init_exDs : init exData exDb 1 0 none = .ok exDs := by
  simp [init, exData, exDs, List.mergeSort_singleton]

/-- Evaluating the example lookup. -/
theorem getitem_exDs_eval :
    getitem (fun b : ℕ => some b) exDs ((0 : ℕ) : ℤ) 0 = .ok ([7, 7], 9) := by
  rfl

/-- Witness for claim C6 on the one-video example dataset. -/
theorem init_len_sorted_deterministic_witness :
    (init exData exDb 1 0 none = .ok exDs ∧
      (List.map Prod.fst exData.annotation).Nodup) ∧
    (lenDataset exDs = (List.map Prod.fst exData.annotation).dedup.length ∧
    exDs.videos.Perm (List.map Prod.fst exData.annotation) ∧
    List.Sorted (· ≤ ·) exDs.videos ∧
    ∀ (db2 : String → Option (Clip ℕ)) (clips2 frames2 : ℤ)
      (tr2 : Option (List ℕ → List ℕ)) (ds2 : HDF5VideoDataset ℕ ℕ),
      init exData db2 clips2 frames2 tr2 = .ok ds2 → ds2.videos = exDs.videos) :=
  ⟨⟨init_exDs, by decide⟩,
    init_len_sorted_deterministic exData exDb 1 0 none exDs init_exDs (by decide)⟩

/-- Witness for claim C5 on the one-video example dataset. -/
theorem getitem_label_spec_witness :
    (init exData exDb 1 0 none = .ok exDs ∧ 0 < lenDataset exDs ∧
      getitem (fun b : ℕ => some b) exDs ((0 : ℕ) : ℤ) 0 = .ok ([7, 7], 9)) ∧
    (exDs.videos =
        List.mergeSort (List.map Prod.fst exData.annotation) (fun a b => decide (a ≤ b)) ∧
    ∃ vid, exDs.videos.get? 0 = some vid ∧ List.lookup vid exData.annotation = some 9) :=
  ⟨⟨init_exDs, by decide, getitem_exDs_eval⟩,
    getitem_label_spec exData exDb 1 0 none exDs init_exDs (fun b : ℕ => some b) 0
      (by decide) 0 [7, 7] 9 getitem_exDs_eval⟩

/-- Witness for claim C8 on the example dataset with frames = 1. -/
theorem getitem_single_frame_raises_witness :
    (pyListGet exDs1.videos 0 = some "v" ∧
      List.lookup "v" exDs1.annotation = some 9 ∧
      exDs1.database ("v" ++ "/" ++ pyFormatInt 3 0) = some exClip ∧
      exDs1.num_frames_per_clip = 1 ∧ Clip.len exClip ≠ 1) ∧
    (frameIndex exDs1.num_frames_per_clip (Clip.len exClip) =
        [PyVal.floatV ((Clip.len exClip : ℚ) / 2)] ∧
    ∀ decode : ℕ → Option ℕ, getitem decode exDs1 0 0 = .error PyErr.valueError) :=
  ⟨⟨by rfl, by rfl, by rfl, rfl, by decide⟩,
    getitem_single_frame_raises exDs1 0 0 "v" 9 exClip (by rfl) (by rfl) (by rfl) rfl
      (by decide)⟩

/-- Witness for claim C9 at index -1 on the one-video example dataset. -/
theorem getitem_negative_index_spec_witness :
    (-(lenDataset exDs : ℤ) ≤ -1 ∧ (-1 : ℤ) < 0) ∧
    (getitem (fun b : ℕ => some b) exDs (-1) 0 =
        getitem (fun b : ℕ => some b) exDs (-1 + (lenDataset exDs : ℤ)) 0 ∧
    ∀ j : ℤ, (getitem (fun b : ℕ => some b) exDs j 0 = .error PyErr.indexError ↔
      ((lenDataset exDs : ℤ) ≤ j ∨ j < -(lenDataset exDs : ℤ)))) :=
  ⟨⟨by decide, by decide⟩,
    getitem_negative_index_spec (fun b : ℕ => some b) exDs (-1) 0 (by decide) (by decide)⟩
